import Mathlib

/-
Verification development for the `tes` crate, a typed client for the GA4GH
Task Execution Service (TES) REST/JSON API.

The definitions below are a shallow embedding of the crate's request
execution engine and data model:

* `src/v1/types/task.rs` — task state and component schemas;
* `src/v1/types/requests.rs` — query parameters and page-size bounds;
* `src/v1/types/responses.rs` — response shapes and the tagged `TaskResponse`;
* `src/v1/client.rs` — the retry/classify loop of `Client::get` / `Client::post`
  and the operations `list_tasks` / `get_task` / `cancel_task`;
* `src/v1/client/builder.rs` — base-URL normalization.

Machine integers (`u16`, HTTP status codes) are embedded as `Nat`: none of
the modelled code paths can overflow (page sizes are compared against 2048,
status codes are three-digit). The network is modelled as an oracle
`Nat → HttpEvent` giving the transport outcome of each attempt, and response
bodies are opaque `String`s handed to explicit decode functions.
-/

namespace TES

/-! ## Task state (`src/v1/types/task.rs`, enum `State`) -/

/-- Task state as defined by the server (`task.rs` lines 21-90).
Serde renames: `rename_all = "UPPERCASE"` with explicit renames
`EXECUTOR_ERROR` and `SYSTEM_ERROR`. -/
inductive State where
  | Unknown
  | Queued
  | Initializing
  | Running
  | Paused
  | Complete
  | ExecutorError
  | SystemError
  | Canceled
  | Canceling
  | Preempted
deriving DecidableEq

/-- The wire name of each `State` variant, per the serde attributes on
`task.rs` lines 17-89. -/
def State.wireName : State → String
  | .Unknown => "UNKNOWN"
  | .Queued => "QUEUED"
  | .Initializing => "INITIALIZING"
  | .Running => "RUNNING"
  | .Paused => "PAUSED"
  | .Complete => "COMPLETE"
  | .ExecutorError => "EXECUTOR_ERROR"
  | .SystemError => "SYSTEM_ERROR"
  | .Canceled => "CANCELED"
  | .Canceling => "CANCELING"
  | .Preempted => "PREEMPTED"

/-! ## Views (`src/v1/types/requests.rs`, enum `View`) -/

/-- A requested view of tasks (`requests.rs` lines 22-32); the derived
`Default` is `Minimal`. -/
inductive View where
  | Minimal
  | Basic
  | Full
deriving DecidableEq

instance : Inhabited View := ⟨View.Minimal⟩

/-! ## JSON values

A model of `serde_json::Value`. Numbers are carried as raw literal text
(`serde_json::Number` backed by its decimal representation); none of the
verified properties interprets a number arithmetically. -/

inductive Json where
  | null
  | bool (b : Bool)
  | str (s : String)
  | num (lit : String)
  | arr (items : List Json)
  | obj (fields : List (String × Json))

/-- Compact rendering, modelling `serde_json::to_string`. String escaping is
restricted to the quote and backslash (sufficient for every string the
modelled call sites produce). -/
def jsonEscape (s : String) : String :=
  String.mk (s.data.flatMap fun c =>
    if c = '"' ∨ c = '\\' then ['\\', c] else [c])

mutual

def jsonRender : Json → String
  | .null => "null"
  | .bool true => "true"
  | .bool false => "false"
  | .str s => "\"" ++ jsonEscape s ++ "\""
  | .num lit => lit
  | .arr items => "[" ++ jsonRenderList items ++ "]"
  | .obj fields => "\x7b" ++ jsonRenderFields fields ++ "\x7d"

def jsonRenderList : List Json → String
  | [] => ""
  | [j] => jsonRender j
  | j :: rest => jsonRender j ++ "," ++ jsonRenderList rest

def jsonRenderFields : List (String × Json) → String
  | [] => ""
  | [(k, v)] => "\"" ++ jsonEscape k ++ "\":" ++ jsonRender v
  | (k, v) :: rest =>
    "\"" ++ jsonEscape k ++ "\":" ++ jsonRender v ++ "," ++ jsonRenderFields rest

end

/-! ## Component schemas (`src/v1/types/task/file.rs`, `executor.rs`,
`task.rs`) -/

/-- A type of file (`file.rs`, enum `Type`; the Rust field using it is
`r#type`). -/
inductive FileType where
  | File
  | Directory
deriving DecidableEq

/-- Opaque IEEE-754 double (`f64` fields of `Resources`). The embedding
carries the bit pattern and never interprets it. -/
structure F64 where
  bits : Nat
deriving DecidableEq

/-- Opaque `chrono::DateTime<Utc>`: carried as its RFC 3339 text. -/
structure DateTimeUtc where
  rfc3339 : String
deriving DecidableEq

/-- An input for a TES task (`task.rs` struct `Input`). The Rust field
`r#type` is embedded as `ftype`. -/
structure Input where
  name : Option String
  description : Option String
  url : Option String
  path : String
  ftype : FileType
  content : Option String

/-- An output for a TES task (`task.rs` struct `Output`). -/
structure Output where
  name : Option String
  description : Option String
  url : String
  path : String
  ftype : FileType

/-- Requested resources (`task.rs` struct `Resources`). -/
structure Resources where
  cpu_cores : Option Int
  preemptible : Option Bool
  ram_gb : Option F64
  disk_gb : Option F64
  zones : Option (List String)

/-- An executor (`executor.rs` struct `Executor`); `env` is an association
list standing for the source's map. -/
structure Executor where
  image : String
  command : List String
  workdir : Option String
  stdin : Option String
  stdout : Option String
  stderr : Option String
  env : Option (List (String × String))
  ignore_error : Option Bool

namespace responses

/-! ## Response shapes (`src/v1/types/responses.rs`) -/

/-- A task output file (`responses.rs` struct `OutputFile`). -/
structure OutputFile where
  url : String
  path : String
  size_bytes : String

/-- A log for an executor (`responses.rs` struct `ExecutorLog`). -/
structure ExecutorLog where
  start_time : Option DateTimeUtc
  end_time : Option DateTimeUtc
  stdout : Option String
  stderr : Option String
  exit_code : Int

/-- A task log (`responses.rs` struct `TaskLog`); `metadata` is a free-form
`serde_json::Value`. -/
structure TaskLog where
  logs : List ExecutorLog
  metadata : Option Json
  start_time : Option DateTimeUtc
  end_time : Option DateTimeUtc
  outputs : List OutputFile
  system_logs : Option (List String)

/-- A "minimal" task representation (`responses.rs` struct `MinimalTask`):
only `id` and `state`. -/
structure MinimalTask where
  id : String
  state : Option State
deriving DecidableEq

/-- A "basic" or "full" task representation (`responses.rs` struct `Task`);
`tags` is an association list standing for the source's `BTreeMap`. -/
structure Task where
  id : Option String
  state : Option State
  name : Option String
  description : Option String
  inputs : Option (List Input)
  outputs : Option (List Output)
  resources : Option Resources
  executors : List Executor
  volumes : Option (List String)
  tags : Option (List (String × String))
  logs : Option (List TaskLog)
  creation_time : Option DateTimeUtc

/-- The response from `GET /tasks` (`responses.rs` struct `ListTasks<Task>`). -/
structure ListTasks (T : Type) where
  tasks : List T
  next_page_token : Option String

/-- A response from `POST /tasks` (`responses.rs` struct `CreatedTask`). -/
structure CreatedTask where
  id : String
deriving DecidableEq

/-- A generalized representation of a task (`responses.rs` enum
`TaskResponse`, serde `untagged`). -/
inductive TaskResponse where
  | Minimal (task : MinimalTask)
  | Basic (task : Task)
  | Full (task : Task)

/-- Retrieves the inner `MinimalTask` if the variant is `Minimal`
(`responses.rs` lines 193-198). -/
def TaskResponse.as_minimal : TaskResponse → Option MinimalTask
  | .Minimal task => some task
  | _ => none

/-- Consumes `self`, returning the inner `MinimalTask` if the variant is
`Minimal` (`responses.rs` lines 202-207). -/
def TaskResponse.into_minimal : TaskResponse → Option MinimalTask
  | .Minimal task => some task
  | _ => none

/-- Retrieves the inner `Task` if the variant is `Basic` or `Full`
(`responses.rs` lines 211-216). -/
def TaskResponse.as_task : TaskResponse → Option Task
  | .Basic task => some task
  | .Full task => some task
  | _ => none

/-- Consumes `self`, returning the inner `Task` if the variant is `Basic`
or `Full` (`responses.rs` lines 220-225). -/
def TaskResponse.into_task : TaskResponse → Option Task
  | .Basic task => some task
  | .Full task => some task
  | _ => none

/-- The tag (view) of a `TaskResponse` value. -/
def TaskResponse.tag : TaskResponse → View
  | .Minimal _ => View.Minimal
  | .Basic _ => View.Basic
  | .Full _ => View.Full

end responses

/-! ## Request parameters (`src/v1/types/requests.rs`) -/

/-- The default number of tasks in a page of `ListTasks` results
(`requests.rs` line 12, `DEFAULT_PAGE_SIZE: u16 = 256`). -/
def DEFAULT_PAGE_SIZE : Nat := 256

/-- The exclusive maximum page size (`requests.rs` line 16,
`MAX_PAGE_SIZE: u16 = 2048`). -/
def MAX_PAGE_SIZE : Nat := 2048

/-- The query parameters for the `GetTask` endpoint (`requests.rs` struct
`GetTaskParams`); `view` defaults to `Minimal`. -/
structure GetTaskParams where
  view : View

/-- The query parameters for the `ListTasks` endpoint (`requests.rs` struct
`ListTasksParams`). -/
structure ListTasksParams where
  name_prefix : Option String
  state : Option State
  tag_keys : Option (List String)
  tag_values : Option (List String)
  page_size : Option Nat
  page_token : Option String
  view : Option View

/-! ## The retry executor

Model of `tokio_retry2::Retry::spawn_notify` as driven by `Client::get` and
`Client::post` (`client.rs` lines 108-136 and 168-198): the operation runs
at least once; a transient error consumes the next wait of the schedule and
retries, or is surfaced once the schedule is exhausted; a permanent error is
surfaced immediately. The schedule is the caller's `retries` iterator, here
a finite list of wait durations (in seconds); the attempt counter indexes an
oracle of per-attempt outcomes. The first component of the result is the
total number of attempts performed. -/

/-- One attempt's classified outcome (`tokio_retry2::RetryError` plus
success). -/
inductive RetryOutcome (E A : Type) where
  | transient (e : E)
  | permanent (e : E)
  | success (a : A)

/-- The retry loop of `Retry::spawn_notify`: run attempt `k`; retry on a
transient error while the schedule has waits left. -/
def retrySpawn {E A : Type} (op : Nat → RetryOutcome E A) :
    List Nat → Nat → Nat × Except E A
  | schedule, k =>
    match op k, schedule with
    | .success a, _ => (k + 1, .ok a)
    | .permanent e, _ => (k + 1, .error e)
    | .transient e, [] => (k + 1, .error e)
    | .transient _, _ :: rest => retrySpawn op rest (k + 1)

/-! ## Transport outcomes and the per-attempt classification of
`Client::get` / `Client::post` (`src/v1/client.rs`) -/

/-- What the transport reports for one attempt: the send failed
(no response), or a response arrived with a status code and either its body
(`some bytes`) or a failure while receiving the body (`none`). -/
inductive HttpEvent where
  | connFailure
  | response (status : Nat) (body : Option String)

/-- The distinguishable kinds of `reqwest::Error` produced inside the retry
closures. -/
inductive ReqError where
  | connError
  | statusError (status : Nat)
  | bodyReadError
  | bodyDecodeError
deriving DecidableEq

/-- The per-attempt classification of `Client::get` (`client.rs` lines
110-133): a send failure is transient; a server-error status (5xx,
`StatusCode::is_server_error`) is transient; any other status rejected by
`error_for_status` (4xx) is permanent; a failure to receive the body is
transient; otherwise the body bytes are the success value. -/
def getAttempt : HttpEvent → RetryOutcome ReqError String
  | .connFailure => .transient .connError
  | .response status body =>
    if 500 ≤ status ∧ status ≤ 599 then .transient (.statusError status)
    else if 400 ≤ status ∧ status ≤ 599 then .permanent (.statusError status)
    else
      match body with
      | none => .transient .bodyReadError
      | some bytes => .success bytes

/-- The per-attempt classification of `Client::post` (`client.rs` lines
170-195): as `getAttempt`, except that the body is read *and decoded*
inside the attempt (`Response::json::<T>()`), so a decode failure is also
classified transient. -/
def postAttempt {T : Type} (decode : String → Option T) :
    HttpEvent → RetryOutcome ReqError T
  | .connFailure => .transient .connError
  | .response status body =>
    if 500 ≤ status ∧ status ≤ 599 then .transient (.statusError status)
    else if 400 ≤ status ∧ status ≤ 599 then .permanent (.statusError status)
    else
      match body with
      | none => .transient .bodyReadError
      | some bytes =>
        match decode bytes with
        | none => .transient .bodyDecodeError
        | some value => .success value

/-- The client's error enum (`client.rs` enum `Error`): payloads of the
serde variants are omitted. -/
inductive Error where
  | InvalidRequest (message : String)
  | SerdeJSON
  | SerdeParams
  | Reqwest (e : ReqError)

/-- `Client::get` (`client.rs` lines 91-140): drive `getAttempt` through the
retry loop; on success, decode the received bytes *outside* the loop
(`serde_json::from_slice`, line 139), so a decode failure there is surfaced
directly, never retried. The endpoint takes no part in the model's transport
oracle but is kept as in the source. -/
def clientGet {T : Type} (_endpoint : String) (schedule : List Nat)
    (events : Nat → HttpEvent) (decode : String → Option T) :
    Nat × Except Error T :=
  let run := retrySpawn (fun i => getAttempt (events i)) schedule 0
  match run.2 with
  | .error e => (run.1, .error (.Reqwest e))
  | .ok bytes =>
    match decode bytes with
    | some value => (run.1, .ok value)
    | none => (run.1, .error .SerdeJSON)

/-- `Client::post` (`client.rs` lines 149-201): serialize the body up front,
then drive `postAttempt` (which decodes inside the loop) through the retry
executor. -/
def clientPost {T : Type} (_endpoint : String) (body : Json)
    (schedule : List Nat) (events : Nat → HttpEvent)
    (decode : String → Option T) : Nat × Except Error T :=
  let _bodyText := jsonRender body
  let run := retrySpawn (fun i => postAttempt decode (events i)) schedule 0
  (run.1, run.2.mapError Error.Reqwest)

/-! ## The list and get operations (`src/v1/client.rs`,
`Client::list_tasks` lines 222-281 and `Client::get_task` lines 303-324)

The query-string serializer (`serde_url_params::to_string`) and the two
page decoders are collaborator functions passed in as parameters; the view
dispatch, validation and tagging below are the source's own logic. -/

/-- The view that governs `list_tasks`' decode dispatch (`client.rs` line
243, `params.and_then(|p| p.view).unwrap_or_default()`). -/
def requestedListView (params : Option ListTasksParams) : View :=
  (params.bind fun p => p.view).getD View.Minimal

/-- The view that governs `get_task`'s decode dispatch (`client.rs` line
319, `params.map(|p| p.view).unwrap_or_default()`). -/
def requestedGetView (params : Option GetTaskParams) : View :=
  (params.map fun p => p.view).getD View.Minimal

/-- Wraps a decoded page of `MinimalTask`s (`client.rs` lines 245-254). -/
def wrapMinimalPage (page : responses.ListTasks responses.MinimalTask) :
    responses.ListTasks responses.TaskResponse :=
  { tasks := page.tasks.map responses.TaskResponse.Minimal
    next_page_token := page.next_page_token }

/-- Wraps a decoded page of `Task`s with the `Basic` tag (`client.rs` lines
257-266). -/
def wrapBasicPage (page : responses.ListTasks responses.Task) :
    responses.ListTasks responses.TaskResponse :=
  { tasks := page.tasks.map responses.TaskResponse.Basic
    next_page_token := page.next_page_token }

/-- Wraps a decoded page of `Task`s with the `Full` tag (`client.rs` lines
269-278). -/
def wrapFullPage (page : responses.ListTasks responses.Task) :
    responses.ListTasks responses.TaskResponse :=
  { tasks := page.tasks.map responses.TaskResponse.Full
    next_page_token := page.next_page_token }

/-- `Client::list_tasks` (`client.rs` lines 222-281): validate the page
size before anything else (returning `Error::InvalidRequest` with zero
network attempts on violation), build the query string, then dispatch the
decode target on the requested view and wrap each decoded task with the
matching tag. `encodeParams` models `serde_url_params::to_string`
(`none` = serialization failure); the decoders model the two
`serde_json::from_slice` targets. -/
def list_tasks (params : Option ListTasksParams)
    (encodeParams : ListTasksParams → Option String)
    (decodeMinimalPage : String → Option (responses.ListTasks responses.MinimalTask))
    (decodeTaskPage : String → Option (responses.ListTasks responses.Task))
    (schedule : List Nat) (events : Nat → HttpEvent) :
    Nat × Except Error (responses.ListTasks responses.TaskResponse) :=
  match params with
  | some p =>
    if p.page_size.getD DEFAULT_PAGE_SIZE ≥ MAX_PAGE_SIZE then
      (0, .error (.InvalidRequest
        ("page size must be less than " ++ toString MAX_PAGE_SIZE)))
    else
      match encodeParams p with
      | none => (0, .error .SerdeParams)
      | some query =>
        list_tasks_dispatch (some p) ("tasks?" ++ query) decodeMinimalPage
          decodeTaskPage schedule events
  | none => list_tasks_dispatch none "tasks" decodeMinimalPage decodeTaskPage
      schedule events
where
  /-- The three-way view dispatch of `client.rs` lines 243-280. -/
  list_tasks_dispatch (params : Option ListTasksParams) (url : String)
      (decodeMinimalPage : String → Option (responses.ListTasks responses.MinimalTask))
      (decodeTaskPage : String → Option (responses.ListTasks responses.Task))
      (schedule : List Nat) (events : Nat → HttpEvent) :
      Nat × Except Error (responses.ListTasks responses.TaskResponse) :=
    match requestedListView params with
    | .Minimal =>
      let run := clientGet url schedule events decodeMinimalPage
      (run.1, run.2.map wrapMinimalPage)
    | .Basic =>
      let run := clientGet url schedule events decodeTaskPage
      (run.1, run.2.map wrapBasicPage)
    | .Full =>
      let run := clientGet url schedule events decodeTaskPage
      (run.1, run.2.map wrapFullPage)

/-- `Client::get_task` (`client.rs` lines 303-324): build the endpoint from
the task id and optional query parameters, then dispatch the decode target
on the requested view, wrapping the decoded value with the matching tag. -/
def get_task (id : String) (params : Option GetTaskParams)
    (encodeParams : GetTaskParams → Option String)
    (decodeMinimal : String → Option responses.MinimalTask)
    (decodeTask : String → Option responses.Task)
    (schedule : List Nat) (events : Nat → HttpEvent) :
    Nat × Except Error responses.TaskResponse :=
  let urlResult : Option String :=
    match params with
    | some p => (encodeParams p).map fun query => "tasks/" ++ id ++ "?" ++ query
    | none => some ("tasks/" ++ id)
  match urlResult with
  | none => (0, .error .SerdeParams)
  | some url =>
    match requestedGetView params with
    | .Minimal =>
      let run := clientGet url schedule events decodeMinimal
      (run.1, run.2.map responses.TaskResponse.Minimal)
    | .Basic =>
      let run := clientGet url schedule events decodeTask
      (run.1, run.2.map responses.TaskResponse.Basic)
    | .Full =>
      let run := clientGet url schedule events decodeTask
      (run.1, run.2.map responses.TaskResponse.Full)

/-! ## URLs and the client builder (`src/v1/client/builder.rs`) -/

/-- A parsed absolute URL. Modelled from the `url` crate's `Url` restricted
to what the client uses: a scheme, an authority (host and optional port,
user info unmodelled) and a path. -/
structure Url where
  scheme : String
  authority : String
  path : String
deriving DecidableEq

/-- Serialization of a `Url` (the url crate's `Url::as_str`). -/
def Url.asString (u : Url) : String :=
  u.scheme ++ "://" ++ u.authority ++ u.path

/-- Rust's `str::ends_with("/")` specialized to its one-character pattern:
the last character is `'/'`. -/
def pathEndsWithSlash (p : String) : Bool :=
  p.data.getLast? == some '/'

/-- The URL normalization inside `Builder::url` (`builder.rs` lines 58-68):
if the path does not end with `/`, append one (`url.set_path` with the old
path plus a slash). -/
def normalizeUrl (u : Url) : Url :=
  if pathEndsWithSlash u.path then u else { u with path := u.path ++ "/" }

/-- Splits a character list at the first occurrence of `"://"`, returning
what precedes it (the scheme) and what follows it. -/
def splitSchemeAux (acc : List Char) : List Char → Option (List Char × List Char)
  | ':' :: '/' :: '/' :: rest => some (acc.reverse, rest)
  | c :: rest => splitSchemeAux (c :: acc) rest
  | [] => none

/-- Modelled from the url crate: `Url::parse` for the absolute
`scheme://authority/path` URLs the builder receives. An empty path
serializes as `/` (the url crate's normalization for special schemes). -/
def urlParse (s : String) : Option Url :=
  match splitSchemeAux [] s.data with
  | none => none
  | some (schemeChars, restChars) =>
    if schemeChars = [] then none
    else
      let authority := restChars.takeWhile fun c => c != '/'
      let path := restChars.dropWhile fun c => c != '/'
      if authority = [] then none
      else some { scheme := String.mk schemeChars
                  authority := String.mk authority
                  path := if path = [] then "/" else String.mk path }

/-- The client builder (`builder.rs` struct `Builder`): optional base URL,
default headers, and optional timeouts (in seconds). -/
structure Builder where
  url : Option Url
  headers : List (String × String)
  connect_timeout : Option Nat
  read_timeout : Option Nat
deriving DecidableEq

/-- The derived `Builder::default()`: everything unset. -/
def Builder.empty : Builder :=
  { url := none, headers := [], connect_timeout := none, read_timeout := none }

/-- `Builder::url` (`builder.rs` lines 58-68): store the URL after ensuring
its path ends with a slash, silently overwriting any previous URL. -/
def Builder.setUrl (b : Builder) (u : Url) : Builder :=
  { b with url := some (normalizeUrl u) }

/-- `Builder::url_from_string` (`builder.rs` lines 77-80): parse, then
delegate to `Builder::url`; a parse failure is an error (`none`). -/
def Builder.url_from_string (b : Builder) (s : String) : Option Builder :=
  (urlParse s).map b.setUrl

/-- Modelled from the url crate: `Url::join` with a relative reference that
has no leading slash, as produced by every endpoint of the client: the
reference replaces the part of the base path after its last slash. -/
def urlJoin (base : Url) (endpoint : String) : Url :=
  { base with
    path := String.mk
      ((base.path.data.reverse.dropWhile fun c => c != '/').reverse
        ++ endpoint.data) }

/-! ## POST request construction (`Client::post`, `client.rs` lines 149-175,
and `Client::cancel_task`, lines 332-339) -/

/-- The observable request a `Client::post` call constructs: the resolved
URL, the explicitly attached `Content-Type` header, and the body text
produced by `serde_json::to_string` (`client.rs` lines 159, 165, 173-175). -/
structure PostRequest where
  url : Url
  headers : List (String × String)
  body : String
deriving DecidableEq

/-- The request constructed by `Client::post` for a base URL, endpoint and
body value. -/
def postRequest (base : Url) (endpoint : String) (body : Json) : PostRequest :=
  { url := urlJoin base endpoint
    headers := [("Content-Type", "application/json")]
    body := jsonRender body }

/-- `Client::cancel_task` (`client.rs` lines 332-339): a POST to
`tasks/{id}:cancel` whose body is the unit value `()` — which
`serde_json::to_string` serializes as `null`. -/
def cancel_task_request (base : Url) (id : String) : PostRequest :=
  postRequest base ("tasks/" ++ id ++ ":cancel") Json.null

/-! ## Serde decoding of `MinimalTask` (`responses.rs` lines 103-113)

The derived deserializer for a struct: walk the object's entries in order;
a known field must not repeat and must deserialize at its declared type; an
unknown field is skipped whatever its value; at the end, `id` (a `String`)
is required and `state` (an `Option<State>`) defaults to `None`. -/

/-- Deserialization of `State` (`task.rs` enum `State` with its serde
renames): a string equal to one of the variant wire names. -/
def decodeState (j : Json) : Option State :=
  match j with
  | .str "UNKNOWN" => some .Unknown
  | .str "QUEUED" => some .Queued
  | .str "INITIALIZING" => some .Initializing
  | .str "RUNNING" => some .Running
  | .str "PAUSED" => some .Paused
  | .str "COMPLETE" => some .Complete
  | .str "EXECUTOR_ERROR" => some .ExecutorError
  | .str "SYSTEM_ERROR" => some .SystemError
  | .str "CANCELED" => some .Canceled
  | .str "CANCELING" => some .Canceling
  | .str "PREEMPTED" => some .Preempted
  | _ => none

/-- Deserialization of `Option<State>`: JSON `null` is `None`, anything
else must be a `State`. -/
def decodeOptState (j : Json) : Option (Option State) :=
  match j with
  | .null => some none
  | j => (decodeState j).map some

/-- Field loop of the derived `MinimalTask` deserializer. The accumulators
record whether `id` / `state` have been seen (a repeat is a "duplicate
field" error). -/
def decodeMinimalFields : List (String × Json) → Option String →
    Option (Option State) → Option responses.MinimalTask
  | [], idAcc, stateAcc =>
    idAcc.map fun i => { id := i, state := stateAcc.getD none }
  | (key, value) :: rest, idAcc, stateAcc =>
    if key = "id" then
      match idAcc, value with
      | some _, _ => none
      | none, .str s => decodeMinimalFields rest (some s) stateAcc
      | none, _ => none
    else if key = "state" then
      match stateAcc, decodeOptState value with
      | some _, _ => none
      | none, some st => decodeMinimalFields rest idAcc (some st)
      | none, none => none
    else
      decodeMinimalFields rest idAcc stateAcc

/-- The derived deserializer for `MinimalTask`: the payload must be an
object; unknown fields are ignored. -/
def decodeMinimalTask (j : Json) : Option responses.MinimalTask :=
  match j with
  | .obj fields => decodeMinimalFields fields none none
  | _ => none

/-! ## Serde encoding of the response shapes

Serialization of a derived struct: the fields in declaration order, where a
field marked `skip_serializing_if = "Option::is_none"` contributes nothing
when `None`. The encoders of the nested component schemas (`Input`,
`Output`, `Resources`, `Executor`, `TaskLog`, timestamps) are collaborator
parameters: no verified property depends on their output. -/

/-- Serialization of `State`: its wire name. -/
def encodeState (st : State) : Json :=
  .str st.wireName

/-- One optional struct field: present exactly when the value is present. -/
def optField (key : String) (value : Option Json) : List (String × Json) :=
  match value with
  | some j => [(key, j)]
  | none => []

/-- Serialization of `MinimalTask` (`responses.rs` lines 106-113): `id`,
then `state` when present. -/
def encodeMinimalTask (m : responses.MinimalTask) : Json :=
  .obj ([("id", .str m.id)] ++ optField "state" (m.state.map encodeState))

/-- Encoders for the component schemas nested inside `responses::Task`. -/
structure FieldEncoders where
  input : Input → Json
  output : Output → Json
  resources : Resources → Json
  executor : Executor → Json
  taskLog : responses.TaskLog → Json
  dateTime : DateTimeUtc → Json

/-- Serialization of `responses::Task` (`responses.rs` lines 126-173): the
twelve fields in declaration order, all but `executors` skipped when
`None`. -/
def encodeTask (E : FieldEncoders) (t : responses.Task) : Json :=
  .obj (optField "id" (t.id.map .str)
    ++ optField "state" (t.state.map encodeState)
    ++ optField "name" (t.name.map .str)
    ++ optField "description" (t.description.map .str)
    ++ optField "inputs" (t.inputs.map fun xs => .arr (xs.map E.input))
    ++ optField "outputs" (t.outputs.map fun xs => .arr (xs.map E.output))
    ++ optField "resources" (t.resources.map E.resources)
    ++ [("executors", .arr (t.executors.map E.executor))]
    ++ optField "volumes" (t.volumes.map fun xs => .arr (xs.map .str))
    ++ optField "tags" (t.tags.map fun kvs =>
        .obj (kvs.map fun kv => (kv.1, .str kv.2)))
    ++ optField "logs" (t.logs.map fun xs => .arr (xs.map E.taskLog))
    ++ optField "creation_time" (t.creation_time.map E.dateTime))

/-- Serialization of the `untagged` enum `TaskResponse` (`responses.rs`
lines 176-188): the inner value's serialization, with no tag on the wire. -/
def encodeTaskResponse (E : FieldEncoders) : responses.TaskResponse → Json
  | .Minimal m => encodeMinimalTask m
  | .Basic t => encodeTask E t
  | .Full t => encodeTask E t

/-- Deserialization of the `untagged` enum `TaskResponse`: try the variants
in declaration order — `Minimal`, then `Basic`, then `Full` — and keep the
first that succeeds. The `Task` deserializer used by the `Basic` and `Full`
variants is a collaborator parameter (both variants hold the same shape, so
both tries use the same function). -/
def decodeTaskResponse (decodeTask : Json → Option responses.Task)
    (j : Json) : Option responses.TaskResponse :=
  match decodeMinimalTask j with
  | some m => some (.Minimal m)
  | none =>
    match decodeTask j with
    | some t => some (.Basic t)
    | none =>
      match decodeTask j with
      | some t => some (.Full t)
      | none => none

/-! ## Lemmas about the retry executor -/

theorem retrySpawn_eq_success {E A : Type} {op : Nat → RetryOutcome E A}
    {sched : List Nat} {k : Nat} {a : A} (h : op k = .success a) :
    retrySpawn op sched k = (k + 1, .ok a) := by
  cases sched <;> simp [retrySpawn, h]

theorem retrySpawn_eq_permanent {E A : Type} {op : Nat → RetryOutcome E A}
    {sched : List Nat} {k : Nat} {e : E} (h : op k = .permanent e) :
    retrySpawn op sched k = (k + 1, .error e) := by
  cases sched <;> simp [retrySpawn, h]

theorem retrySpawn_transient_nil {E A : Type} {op : Nat → RetryOutcome E A}
    {k : Nat} {e : E} (h : op k = .transient e) :
    retrySpawn op [] k = (k + 1, .error e) := by
  simp [retrySpawn, h]

theorem retrySpawn_transient_cons {E A : Type} {op : Nat → RetryOutcome E A}
    {d : Nat} {rest : List Nat} {k : Nat} {e : E} (h : op k = .transient e) :
    retrySpawn op (d :: rest) k = retrySpawn op rest (k + 1) := by
  simp [retrySpawn, h]

/-- A run of the executor over a prefix of transient outcomes followed by a
success, with enough schedule left: one attempt per transient outcome plus
the succeeding one. -/
theorem retrySpawn_transient_prefix_ok {E A : Type}
    (op : Nat → RetryOutcome E A) :
    ∀ (N : Nat) (sched : List Nat) (k : Nat) (a : A),
      (∀ i, i < N → ∃ e, op (k + i) = .transient e) →
      op (k + N) = .success a → N ≤ sched.length →
      retrySpawn op sched k = (k + N + 1, .ok a) := by
  intro N
  induction N with
  | zero =>
    intro sched k a _ hsucc _
    exact retrySpawn_eq_success (by simpa using hsucc)
  | succ n ih =>
    intro sched k a htrans hsucc hlen
    obtain ⟨e, he⟩ := htrans 0 (Nat.succ_pos n)
    cases sched with
    | nil => simp at hlen
    | cons d rest =>
      rw [retrySpawn_transient_cons (by simpa using he)]
      have hlen' : n ≤ rest.length := by simpa using hlen
      have hrun := ih rest (k + 1) a
        (fun i hi => by
          obtain ⟨e', he'⟩ := htrans (i + 1) (Nat.succ_lt_succ hi)
          exact ⟨e', by rw [show k + 1 + i = k + (i + 1) by omega]; exact he'⟩)
        (by rw [show k + 1 + n = k + (n + 1) by omega]; exact hsucc)
        hlen'
      rw [show k + 1 + n + 1 = k + (n + 1) + 1 by omega] at hrun
      exact hrun

/-- A run of the executor over transient outcomes only: the whole schedule
is consumed, one more attempt than the schedule has waits, and the outcome
of the last attempt is surfaced. -/
theorem retrySpawn_exhaust {E A : Type} (op : Nat → RetryOutcome E A) :
    ∀ (sched : List Nat) (k : Nat),
      (∀ i, i ≤ sched.length → ∃ e, op (k + i) = .transient e) →
      ∃ e, op (k + sched.length) = .transient e ∧
        retrySpawn op sched k = (k + sched.length + 1, .error e) := by
  intro sched
  induction sched with
  | nil =>
    intro k h
    obtain ⟨e, he⟩ := h 0 (Nat.le_refl 0)
    refine ⟨e, by simpa using he, ?_⟩
    simpa using retrySpawn_transient_nil (by simpa using he)
  | cons d rest ih =>
    intro k h
    obtain ⟨e0, he0⟩ := h 0 (Nat.zero_le _)
    obtain ⟨e, he, hrun⟩ := ih (k + 1) (fun i hi => by
      obtain ⟨e', he'⟩ := h (i + 1) (by simpa using Nat.succ_le_succ hi)
      exact ⟨e', by rw [show k + 1 + i = k + (i + 1) by omega]; exact he'⟩)
    refine ⟨e, ?_, ?_⟩
    · rw [show k + (d :: rest).length = k + 1 + rest.length by simp; omega]
      exact he
    · rw [retrySpawn_transient_cons (by simpa using he0), hrun]
      rw [show k + 1 + rest.length + 1 = k + (d :: rest).length + 1 by simp; omega]

/-! ## Lemmas about the per-attempt classification -/

theorem getAttempt_5xx {status : Nat} {body : Option String}
    (h1 : 500 ≤ status) (h2 : status ≤ 599) :
    getAttempt (.response status body) = .transient (.statusError status) := by
  simp only [getAttempt]
  rw [if_pos ⟨h1, h2⟩]

theorem getAttempt_4xx {status : Nat} {body : Option String}
    (h1 : 400 ≤ status) (h2 : status ≤ 499) :
    getAttempt (.response status body) = .permanent (.statusError status) := by
  simp only [getAttempt]
  rw [if_neg (by omega), if_pos (by omega)]

theorem getAttempt_2xx {status : Nat} {body : String}
    (h1 : 200 ≤ status) (h2 : status ≤ 299) :
    getAttempt (.response status (some body)) = .success body := by
  simp only [getAttempt]
  rw [if_neg (by omega), if_neg (by omega)]

theorem postAttempt_decode_failure {T : Type} {decode : String → Option T}
    {status : Nat} {body : String} (h1 : 200 ≤ status) (h2 : status ≤ 299)
    (hdec : decode body = none) :
    postAttempt decode (.response status (some body)) =
      .transient .bodyDecodeError := by
  simp only [postAttempt]
  rw [if_neg (by omega), if_neg (by omega), hdec]

/-- A transient transport outcome in the sense of the spec: a connection
failure, or a response bearing a server-error (5xx) status. -/
def transientEvent (ev : HttpEvent) : Prop :=
  ev = .connFailure ∨
    ∃ status body, ev = .response status body ∧ 500 ≤ status ∧ status ≤ 599

theorem getAttempt_of_transientEvent {ev : HttpEvent}
    (h : transientEvent ev) : ∃ e, getAttempt ev = .transient e := by
  rcases h with rfl | ⟨status, body, rfl, h1, h2⟩
  · exact ⟨.connError, rfl⟩
  · exact ⟨.statusError status, getAttempt_5xx h1 h2⟩

/-- C2: given N consecutive transient outcomes (connection failure or 5xx)
followed by a 2xx response with a readable body: with a schedule of length
at least N, the executor performs exactly N + 1 attempts and returns the
success; with a schedule of length L < N, it performs exactly L + 1
attempts and surfaces the transient error of its last attempt. -/
theorem retry_executor_transient_run :
    (∀ (schedule : List Nat) (events : Nat → HttpEvent) (N status : Nat)
        (body : String),
      (∀ i, i < N → transientEvent (events i)) →
      events N = .response status (some body) →
      200 ≤ status → status ≤ 299 → N ≤ schedule.length →
      retrySpawn (fun i => getAttempt (events i)) schedule 0 =
        (N + 1, .ok body)) ∧
    (∀ (schedule : List Nat) (events : Nat → HttpEvent) (N : Nat),
      (∀ i, i < N → transientEvent (events i)) →
      schedule.length < N →
      ∃ e, getAttempt (events schedule.length) = .transient e ∧
        retrySpawn (fun i => getAttempt (events i)) schedule 0 =
          (schedule.length + 1, .error e)) := by
  constructor
  · intro schedule events N status body htrans hN h1 h2 hlen
    have := retrySpawn_transient_prefix_ok (fun i => getAttempt (events i)) N
      schedule 0 body
      (fun i hi => by
        simpa using getAttempt_of_transientEvent (htrans i hi))
      (by simp only [Nat.zero_add]; rw [hN]; exact getAttempt_2xx h1 h2)
      hlen
    simpa using this
  · intro schedule events N htrans hlen
    have := retrySpawn_exhaust (fun i => getAttempt (events i)) schedule 0
      (fun i hi => by
        simpa using getAttempt_of_transientEvent
          (htrans i (Nat.lt_of_le_of_lt hi hlen)))
    simpa using this

/-- Witness events for `retry_executor_transient_run`: one 503 response,
then a 200 with body "ok". -/
def c2Events : Nat → HttpEvent
  | 0 => .response 503 none
  | _ => .response 200 (some "ok")

/-- Witness events: every attempt fails at the connection level. -/
def c2FailEvents : Nat → HttpEvent :=
  fun _ => .connFailure

theorem retry_executor_transient_run_witness :
    retrySpawn (fun i => getAttempt (c2Events i)) [1] 0 = (2, .ok "ok") ∧
    retrySpawn (fun i => getAttempt (c2FailEvents i)) [1] 0 =
      (2, .error .connError) := by
  constructor
  · exact retry_executor_transient_run.1 [1] c2Events 1 200 "ok"
      (fun i hi => by
        interval_cases i
        exact Or.inr ⟨503, none, rfl, by omega, by omega⟩)
      rfl (by omega) (by omega) (by simp)
  · obtain ⟨e, he, hrun⟩ := retry_executor_transient_run.2 [1] c2FailEvents 2
      (fun i _ => Or.inl rfl) (by simp)
    have : e = .connError := by
      simpa [c2FailEvents, getAttempt] using he.symm
    rw [this] at hrun
    simpa using hrun

/-- C3: a response with a non-success, non-5xx (4xx) status on the first
attempt ends the run immediately: exactly one attempt, a permanent
transport error, and the same outcome whatever the schedule holds (so no
wait of the schedule is consumed). -/
theorem get_4xx_permanent_single_attempt :
    ∀ (schedule : List Nat) (events : Nat → HttpEvent) (status : Nat)
      (body : Option String),
      events 0 = .response status body → 400 ≤ status → status ≤ 499 →
      retrySpawn (fun i => getAttempt (events i)) schedule 0 =
        (1, .error (.statusError status)) := by
  intro schedule events status body h0 h1 h2
  exact retrySpawn_eq_permanent (by rw [h0]; exact getAttempt_4xx h1 h2)

/-- Witness events: a single 404 response. -/
def c3Events : Nat → HttpEvent :=
  fun _ => .response 404 none

theorem get_4xx_permanent_single_attempt_witness :
    retrySpawn (fun i => getAttempt (c3Events i)) [1, 2, 3] 0 =
      (1, .error (.statusError 404)) :=
  get_4xx_permanent_single_attempt [1, 2, 3] c3Events 404 none rfl
    (by omega) (by omega)

/-- C4: on the read path (`Client::get`), a decode failure after the body
bytes were received is surfaced directly as a decode error after exactly
one attempt, whatever the schedule; on the write path (`Client::post`),
decoding happens inside the attempt and its failure is classified
transient, so it consumes the whole retry schedule. -/
theorem decode_failure_read_vs_write :
    (∀ (T : Type) (endpoint : String) (schedule : List Nat)
        (events : Nat → HttpEvent) (decode : String → Option T)
        (status : Nat) (body : String),
      events 0 = .response status (some body) →
      200 ≤ status → status ≤ 299 → decode body = none →
      clientGet endpoint schedule events decode =
        (1, .error .SerdeJSON)) ∧
    (∀ (T : Type) (endpoint : String) (bodyJson : Json) (schedule : List Nat)
        (events : Nat → HttpEvent) (decode : String → Option T),
      (∀ i, i ≤ schedule.length → ∃ status body,
        events i = .response status (some body) ∧
        200 ≤ status ∧ status ≤ 299 ∧ decode body = none) →
      clientPost endpoint bodyJson schedule events decode =
        (schedule.length + 1, .error (.Reqwest .bodyDecodeError))) := by
  constructor
  · intro T endpoint schedule events decode status body h0 h1 h2 hdec
    have hrun : retrySpawn (fun i => getAttempt (events i)) schedule 0 =
        (1, .ok body) :=
      retrySpawn_eq_success (by rw [h0]; exact getAttempt_2xx h1 h2)
    simp [clientGet, hrun, hdec]
  · intro T endpoint bodyJson schedule events decode hall
    obtain ⟨e, he, hrun⟩ := retrySpawn_exhaust
      (fun i => postAttempt decode (events i)) schedule 0
      (fun i hi => by
        obtain ⟨status, body, hev, h1, h2, hdec⟩ := hall i hi
        exact ⟨.bodyDecodeError, by
          simp only [Nat.zero_add]
          rw [hev]
          exact postAttempt_decode_failure h1 h2 hdec⟩)
    have hlast : e = .bodyDecodeError := by
      obtain ⟨status, body, hev, h1, h2, hdec⟩ :=
        hall schedule.length (Nat.le_refl _)
      have : postAttempt decode (events schedule.length) =
          .transient ReqError.bodyDecodeError := by
        rw [hev]; exact postAttempt_decode_failure h1 h2 hdec
      rw [show (0 : Nat) + schedule.length = schedule.length by omega] at he
      rw [this] at he
      injection he with h
      exact h.symm
    rw [hlast] at hrun
    simp [clientPost, hrun, Except.mapError]

/-- Witness events: every attempt yields a 200 whose body does not decode. -/
def c4Events : Nat → HttpEvent :=
  fun _ => .response 200 (some "garbage")

/-- Witness decoder: rejects everything. -/
def c4Decode : String → Option Nat :=
  fun _ => none

theorem decode_failure_read_vs_write_witness :
    clientGet "tasks" [1, 2] c4Events c4Decode = (1, .error .SerdeJSON) ∧
    clientPost "tasks" Json.null [1, 2] c4Events c4Decode =
      (3, .error (.Reqwest .bodyDecodeError)) := by
  constructor
  · exact decode_failure_read_vs_write.1 Nat "tasks" [1, 2] c4Events c4Decode
      200 "garbage" rfl (by omega) (by omega) rfl
  · have := decode_failure_read_vs_write.2 Nat "tasks" Json.null [1, 2]
      c4Events c4Decode
      (fun i _ => ⟨200, "garbage", rfl, by omega, by omega, rfl⟩)
    simpa using this

/-- C1: a `ListTasksParams` whose `page_size` is set to a value of at least
`MAX_PAGE_SIZE` (2048) makes `list_tasks` return `Error::InvalidRequest`
with zero attempts performed: the guard runs before the request is
constructed, for every query serializer, decoder, schedule and transport. -/
theorem list_tasks_page_size_guard :
    ∀ (p : ListTasksParams) (n : Nat)
      (encodeParams : ListTasksParams → Option String)
      (decodeMinimalPage : String → Option (responses.ListTasks responses.MinimalTask))
      (decodeTaskPage : String → Option (responses.ListTasks responses.Task))
      (schedule : List Nat) (events : Nat → HttpEvent),
      p.page_size = some n → MAX_PAGE_SIZE ≤ n →
      list_tasks (some p) encodeParams decodeMinimalPage decodeTaskPage
          schedule events =
        (0, .error (.InvalidRequest
          ("page size must be less than " ++ toString MAX_PAGE_SIZE))) := by
  intro p n encodeParams decodeMinimalPage decodeTaskPage schedule events
    hps hn
  simp only [list_tasks, hps, Option.getD_some, ge_iff_le]
  rw [if_pos hn]

/-- Witness parameters: `page_size` set to exactly 2048. -/
def c1Params : ListTasksParams :=
  ⟨none, none, none, none, some 2048, none, none⟩

theorem list_tasks_page_size_guard_witness :
    list_tasks (some c1Params) (fun _ => some "") (fun _ => none)
        (fun _ => none) [] (fun _ => .connFailure) =
      (0, .error (.InvalidRequest
        ("page size must be less than " ++ toString MAX_PAGE_SIZE))) :=
  list_tasks_page_size_guard c1Params 2048 (fun _ => some "") (fun _ => none)
    (fun _ => none) [] (fun _ => .connFailure) rfl (Nat.le_refl _)

/-! ## The tag of a decoded response matches the requested view -/

theorem except_map_eq_ok {ε α β : Type} {f : α → β} {x : Except ε α}
    {b : β} : x.map f = .ok b ↔ ∃ a, x = .ok a ∧ f a = b := by
  cases x <;> simp [Except.map]

theorem list_tasks_dispatch_tag (params : Option ListTasksParams)
    (url : String)
    (decodeMinimalPage : String → Option (responses.ListTasks responses.MinimalTask))
    (decodeTaskPage : String → Option (responses.ListTasks responses.Task))
    (schedule : List Nat) (events : Nat → HttpEvent) (n : Nat)
    (page : responses.ListTasks responses.TaskResponse) :
    list_tasks.list_tasks_dispatch params url decodeMinimalPage decodeTaskPage
        schedule events = (n, .ok page) →
    ∀ t ∈ page.tasks, t.tag = requestedListView params := by
  intro h t ht
  simp only [list_tasks.list_tasks_dispatch] at h
  split at h
  all_goals rename_i hv
  all_goals
    have hsnd := congrArg Prod.snd h
    simp only [except_map_eq_ok] at hsnd
    obtain ⟨page', _, hpage⟩ := hsnd
    rw [← hpage] at ht
    simp only [wrapMinimalPage, wrapBasicPage, wrapFullPage,
      List.mem_map] at ht
    obtain ⟨x, _, rfl⟩ := ht
    rw [hv]
    rfl

/-- C5: every task of a successful `list_tasks` result, and the result of a
successful `get_task` call, carries the tag of the view requested in that
call (`Minimal` when no view was supplied) — whatever the transport events
and whatever the decoders return, since the tag is chosen by the three-way
dispatch on the caller's view argument, never from the payload. -/
theorem response_tag_matches_requested_view :
    (∀ (params : Option ListTasksParams)
        (encodeParams : ListTasksParams → Option String)
        (decodeMinimalPage : String → Option (responses.ListTasks responses.MinimalTask))
        (decodeTaskPage : String → Option (responses.ListTasks responses.Task))
        (schedule : List Nat) (events : Nat → HttpEvent) (n : Nat)
        (page : responses.ListTasks responses.TaskResponse),
      list_tasks params encodeParams decodeMinimalPage decodeTaskPage
          schedule events = (n, .ok page) →
      ∀ t ∈ page.tasks, t.tag = requestedListView params) ∧
    (∀ (id : String) (params : Option GetTaskParams)
        (encodeParams : GetTaskParams → Option String)
        (decodeMinimal : String → Option responses.MinimalTask)
        (decodeTask : String → Option responses.Task)
        (schedule : List Nat) (events : Nat → HttpEvent) (n : Nat)
        (r : responses.TaskResponse),
      get_task id params encodeParams decodeMinimal decodeTask schedule
          events = (n, .ok r) →
      r.tag = requestedGetView params) := by
  constructor
  · intro params encodeParams decodeMinimalPage decodeTaskPage schedule
      events n page h
    match params with
    | none =>
      exact list_tasks_dispatch_tag none "tasks" decodeMinimalPage
        decodeTaskPage schedule events n page h
    | some p =>
      simp only [list_tasks] at h
      split at h
      · exact absurd (congrArg Prod.snd h) (by simp)
      · split at h
        · exact absurd (congrArg Prod.snd h) (by simp)
        · exact list_tasks_dispatch_tag (some p) _ decodeMinimalPage
            decodeTaskPage schedule events n page h
  · intro id params encodeParams decodeMinimal decodeTask schedule events
      n r h
    simp only [get_task] at h
    split at h
    · exact absurd (congrArg Prod.snd h) (by simp)
    · split at h
      all_goals rename_i hv
      all_goals
        have hsnd := congrArg Prod.snd h
        simp only [except_map_eq_ok] at hsnd
        obtain ⟨x, _, hr⟩ := hsnd
        rw [← hr, hv]
        rfl

/-- Witness page decoder: a fixed single-task minimal page. -/
def c5DecodeMinimalPage :
    String → Option (responses.ListTasks responses.MinimalTask) :=
  fun _ => some ⟨[⟨"task1", none⟩], none⟩

/-- Witness transport: a single 200 response. -/
def c5Events : Nat → HttpEvent :=
  fun _ => .response 200 (some "body")

theorem response_tag_matches_requested_view_witness :
    (responses.TaskResponse.Minimal ⟨"task1", none⟩).tag =
      requestedListView none :=
  response_tag_matches_requested_view.1 none (fun _ => some "")
    c5DecodeMinimalPage (fun _ => none) [] c5Events 1
    (wrapMinimalPage ⟨[⟨"task1", none⟩], none⟩) rfl
    (responses.TaskResponse.Minimal ⟨"task1", none⟩)
    (by simp [wrapMinimalPage])

/-! ## Base-URL normalization (`builder.rs`) -/

theorem pathEndsWithSlash_append (p : String) :
    pathEndsWithSlash (p ++ "/") = true := by
  have hslash : ("/" : String).data = ['/'] := rfl
  simp [pathEndsWithSlash, String.data_append, hslash, List.getLast?_concat]

/-- C6: the builder normalizes every configured base URL to end with a
path separator — when the given URL's path does not end with `/`, one is
appended, and a path already ending with `/` is kept as is. In particular
`url_from_string "http://localhost:4000/v1"` configures the base URL
`http://localhost:4000/v1/`. -/
theorem builder_url_trailing_slash :
    (∀ (b : Builder) (u : Url), ∃ u',
      (b.setUrl u).url = some u' ∧
      pathEndsWithSlash u'.path = true ∧
      (pathEndsWithSlash u.path = false → u'.path = u.path ++ "/") ∧
      (pathEndsWithSlash u.path = true → u' = u)) ∧
    (Builder.empty.url_from_string "http://localhost:4000/v1").map
        (fun b => b.url.map Url.asString) =
      some (some "http://localhost:4000/v1/") := by
  constructor
  · intro b u
    refine ⟨normalizeUrl u, rfl, ?_, ?_, ?_⟩
    · rcases h : pathEndsWithSlash u.path with _ | _
      · simp [normalizeUrl, h, pathEndsWithSlash_append]
      · simp [normalizeUrl, h]
    · intro h
      simp [normalizeUrl, h]
    · intro h
      simp [normalizeUrl, h]
  · decide

theorem builder_url_trailing_slash_witness :
    pathEndsWithSlash "/v1" = false ∧
    (Builder.empty.setUrl ⟨"http", "localhost:4000", "/v1"⟩).url =
      some ⟨"http", "localhost:4000", "/v1/"⟩ := by
  refine ⟨by decide, ?_⟩
  obtain ⟨u', hset, _, hpath, _⟩ :=
    builder_url_trailing_slash.1 Builder.empty ⟨"http", "localhost:4000", "/v1"⟩
  rw [hset]
  have hp := hpath (by decide)
  have : u' = ⟨"http", "localhost:4000", "/v1/"⟩ := by
    have hs : u'.scheme = "http" := by
      have := congrArg (fun o => (o.map Url.scheme)) hset
      simpa [Builder.setUrl, normalizeUrl] using this.symm
    have ha : u'.authority = "localhost:4000" := by
      have := congrArg (fun o => (o.map Url.authority)) hset
      simpa [Builder.setUrl, normalizeUrl] using this.symm
    cases u'
    simp_all
  rw [this]

/-- C7: the accessors of `TaskResponse` succeed exactly on the matching
tag: `as_minimal`/`into_minimal` yield the inner `MinimalTask` exactly
when the value is `Minimal`, and `as_task`/`into_task` yield the inner
`Task` exactly when the value is `Basic` or `Full`; in every other case
they yield nothing. -/
theorem taskresponse_accessors :
    ∀ (r : responses.TaskResponse),
      (∀ m, (r.as_minimal = some m ↔ r = .Minimal m) ∧
        (r.into_minimal = some m ↔ r = .Minimal m)) ∧
      (∀ t, (r.as_task = some t ↔ (r = .Basic t ∨ r = .Full t)) ∧
        (r.into_task = some t ↔ (r = .Basic t ∨ r = .Full t))) := by
  intro r
  cases r <;>
    refine ⟨fun m => ⟨?_, ?_⟩, fun t => ⟨?_, ?_⟩⟩ <;>
    simp [responses.TaskResponse.as_minimal,
      responses.TaskResponse.into_minimal, responses.TaskResponse.as_task,
      responses.TaskResponse.into_task]

/-! ## Decoding the minimal view ignores unknown fields -/

/-- Fields whose keys are neither `id` nor `state` are skipped by the
`MinimalTask` field loop without affecting the accumulators. -/
theorem decodeMinimalFields_skip :
    ∀ (l rest : List (String × Json)) (idAcc : Option String)
      (stateAcc : Option (Option State)),
      (∀ kv ∈ l, kv.1 ≠ "id" ∧ kv.1 ≠ "state") →
      decodeMinimalFields (l ++ rest) idAcc stateAcc =
        decodeMinimalFields rest idAcc stateAcc := by
  intro l
  induction l with
  | nil => intro rest idAcc stateAcc _; rfl
  | cons kv tail ih =>
    intro rest idAcc stateAcc h
    obtain ⟨hid, hstate⟩ := h kv (List.mem_cons_self kv tail)
    obtain ⟨key, value⟩ := kv
    simp only [List.cons_append, decodeMinimalFields]
    rw [if_neg hid, if_neg hstate]
    exact ih rest idAcc stateAcc fun kv' hkv' => h kv' (List.mem_cons_of_mem _ hkv')

/-- A field list made only of unknown keys leaves the loop at its final
state. -/
theorem decodeMinimalFields_all_unknown :
    ∀ (l : List (String × Json)) (idAcc : Option String)
      (stateAcc : Option (Option State)),
      (∀ kv ∈ l, kv.1 ≠ "id" ∧ kv.1 ≠ "state") →
      decodeMinimalFields l idAcc stateAcc =
        decodeMinimalFields [] idAcc stateAcc := by
  intro l idAcc stateAcc h
  have := decodeMinimalFields_skip l [] idAcc stateAcc h
  simpa using this

theorem decodeOptState_encodeState (st : State) :
    decodeOptState (encodeState st) = some (some st) := by
  cases st <;> rfl

/-- C8: a JSON object holding a string `id` — and optionally a valid
`state` — among arbitrary extra fields (at any positions, any values, keys
other than `id`/`state`) decodes as the minimal view with no error, into a
value populated only from `id` and `state`. -/
theorem minimal_decode_ignores_extra_fields :
    ∀ (s : String) (st : State) (pre mid post : List (String × Json)),
      (∀ kv ∈ pre, kv.1 ≠ "id" ∧ kv.1 ≠ "state") →
      (∀ kv ∈ mid, kv.1 ≠ "id" ∧ kv.1 ≠ "state") →
      (∀ kv ∈ post, kv.1 ≠ "id" ∧ kv.1 ≠ "state") →
      decodeMinimalTask (.obj (pre ++ [("id", .str s)] ++ post)) =
        some { id := s, state := none } ∧
      decodeMinimalTask
          (.obj (pre ++ [("id", .str s)] ++ mid ++
            [("state", encodeState st)] ++ post)) =
        some { id := s, state := some st } := by
  intro s st pre mid post hpre hmid hpost
  constructor
  · show decodeMinimalFields _ none none = _
    rw [List.append_assoc, List.singleton_append,
      decodeMinimalFields_skip pre _ none none hpre]
    have hstep : decodeMinimalFields (("id", Json.str s) :: post) none none =
        decodeMinimalFields post (some s) none := by
      simp [decodeMinimalFields]
    rw [hstep, decodeMinimalFields_all_unknown post (some s) none hpost]
    rfl
  · show decodeMinimalFields _ none none = _
    simp only [List.append_assoc, List.singleton_append]
    rw [decodeMinimalFields_skip pre _ none none hpre]
    simp only [List.cons_append]
    have hstep : decodeMinimalFields
        (("id", Json.str s) :: (mid ++ ("state", encodeState st) :: post))
        none none =
        decodeMinimalFields (mid ++ ("state", encodeState st) :: post)
          (some s) none := by
      simp [decodeMinimalFields]
    rw [hstep, decodeMinimalFields_skip mid _ (some s) none hmid]
    have hstep2 : decodeMinimalFields (("state", encodeState st) :: post)
        (some s) none =
        decodeMinimalFields post (some s) (some (some st)) := by
      simp [decodeMinimalFields, decodeOptState_encodeState]
    rw [hstep2,
      decodeMinimalFields_all_unknown post (some s) (some (some st)) hpost]
    rfl

theorem minimal_decode_ignores_extra_fields_witness :
    decodeMinimalTask (.obj [("creation_time", .str "2024-01-01"),
        ("id", .str "task1"), ("logs", .arr [])]) =
      some { id := "task1", state := none } ∧
    decodeMinimalTask (.obj [("id", .str "task1"),
        ("state", encodeState .Running), ("extra", .num "7")]) =
      some { id := "task1", state := some State.Running } := by
  constructor
  · exact (minimal_decode_ignores_extra_fields "task1" State.Running
      [("creation_time", .str "2024-01-01")] [] [("logs", .arr [])]
      (by simp) (by simp) (by simp)).1
  · exact (minimal_decode_ignores_extra_fields "task1" State.Running
      [] [] [("extra", .num "7")] (by simp) (by simp) (by simp)).2

/-! ## The cancel-task request -/

theorem dropWhile_reverse_of_getLast_slash :
    ∀ (l : List Char), l.getLast? = some '/' →
      (l.reverse.dropWhile fun c => c != '/').reverse = l := by
  intro l h
  have hh : l.reverse.head? = some '/' := by
    rw [List.head?_reverse]; exact h
  cases hrev : l.reverse with
  | nil => rw [hrev] at hh; cases hh
  | cons c t =>
    rw [hrev] at hh
    have hc : c = '/' := by
      simpa using hh
    subst hc
    have hdrop : (('/' :: t).dropWhile fun c => c != '/') = '/' :: t := by
      simp [List.dropWhile]
    rw [hdrop, ← hrev, List.reverse_reverse]

/-- Joining a relative endpoint against a base URL whose path ends with a
slash appends the endpoint to the base path. -/
theorem urlJoin_path_of_trailing_slash (base : Url) (endpoint : String)
    (h : pathEndsWithSlash base.path = true) :
    (urlJoin base endpoint).path = base.path ++ endpoint := by
  have hlast : base.path.data.getLast? = some '/' := by
    simpa [pathEndsWithSlash] using h
  show String.mk _ = _
  rw [dropWhile_reverse_of_getLast_slash _ hlast]
  refine String.ext ?_
  simp [String.data_append]

/-- C9, counterexample to "empty request body": the body `cancel_task`
posts is the serialization of the unit value, which `serde_json` renders
as the four-byte text `null` — not the empty string. -/
theorem cancel_task_empty_body_refuted :
    ¬ ((cancel_task_request ⟨"http", "localhost:4000", "/v1/"⟩
        "task1").body = "") := by
  decide

/-- C9 (amended): for every task id, `cancel_task` issues a POST whose URL
is `tasks/{id}:cancel` joined against the base URL, with an explicit
`Content-Type: application/json` header; its request body is the JSON text
`null` (the `serde_json` serialization of the unit value `()`), not an
empty body. -/
theorem cancel_task_request_shape :
    ∀ (base : Url) (id : String),
      pathEndsWithSlash base.path = true →
      (cancel_task_request base id).body = "null" ∧
      (cancel_task_request base id).headers =
        [("Content-Type", "application/json")] ∧
      (cancel_task_request base id).url.scheme = base.scheme ∧
      (cancel_task_request base id).url.authority = base.authority ∧
      (cancel_task_request base id).url.path =
        base.path ++ ("tasks/" ++ id ++ ":cancel") := by
  intro base id h
  refine ⟨rfl, rfl, rfl, rfl, ?_⟩
  exact urlJoin_path_of_trailing_slash base ("tasks/" ++ id ++ ":cancel") h

theorem cancel_task_request_shape_witness :
    (cancel_task_request ⟨"http", "localhost:4000", "/v1/"⟩ "task1").body =
      "null" ∧
    (cancel_task_request ⟨"http", "localhost:4000", "/v1/"⟩
        "task1").headers = [("Content-Type", "application/json")] ∧
    (cancel_task_request ⟨"http", "localhost:4000", "/v1/"⟩
        "task1").url.scheme = "http" ∧
    (cancel_task_request ⟨"http", "localhost:4000", "/v1/"⟩
        "task1").url.authority = "localhost:4000" ∧
    (cancel_task_request ⟨"http", "localhost:4000", "/v1/"⟩
        "task1").url.path = "/v1/" ++ ("tasks/" ++ "task1" ++ ":cancel") :=
  cancel_task_request_shape ⟨"http", "localhost:4000", "/v1/"⟩ "task1"
    (by decide)

/-! ## The untagged round trip of `TaskResponse` -/

theorem optField_some (k : String) (j : Json) :
    optField k (some j) = [(k, j)] := rfl

theorem optField_none (k : String) : optField k none = [] := rfl

theorem mem_optField_iff {kv : String × Json} {k : String}
    {v : Option Json} : kv ∈ optField k v ↔ ∃ j, v = some j ∧ kv = (k, j) := by
  cases v <;> simp [optField]

theorem decodeMinimalFields_id_step (s : String)
    (X : List (String × Json)) :
    decodeMinimalFields (("id", Json.str s) :: X) none none =
      decodeMinimalFields X (some s) none := by
  simp [decodeMinimalFields]

theorem decodeMinimalFields_state_step (s : String) (st : State)
    (X : List (String × Json)) :
    decodeMinimalFields (("state", encodeState st) :: X) (some s) none =
      decodeMinimalFields X (some s) (some (some st)) := by
  simp [decodeMinimalFields, decodeOptState_encodeState]

/-- Decoding the serialization of a `responses::Task` that carries an `id`
as the *minimal* shape succeeds — the `MinimalTask` deserializer reads `id`
and `state` and skips every other field — whatever the nested component
encoders emit. -/
theorem decodeMinimalTask_encodeTask (E : FieldEncoders)
    (t : responses.Task) (s : String) (hid : t.id = some s) :
    decodeMinimalTask (encodeTask E t) =
      some { id := s, state := t.state } := by
  simp only [encodeTask, decodeMinimalTask]
  rw [hid]
  simp only [Option.map_some', optField_some]
  simp only [List.append_assoc, List.cons_append, List.singleton_append]
  rw [decodeMinimalFields_id_step]
  cases hstate : t.state with
  | none =>
    simp only [Option.map_none', optField_none, List.nil_append]
    rw [decodeMinimalFields_all_unknown _ _ _ (by
      intro kv hkv
      simp only [List.mem_append, List.mem_cons, mem_optField_iff] at hkv
      casesm* _ ∨ _
      all_goals try casesm* Exists _, _ ∧ _
      all_goals subst_vars
      all_goals refine ⟨by simp, by simp⟩)]
    rfl
  | some st =>
    simp only [Option.map_some', optField_some, List.singleton_append,
      List.nil_append]
    rw [decodeMinimalFields_state_step]
    rw [decodeMinimalFields_all_unknown _ _ _ (by
      intro kv hkv
      simp only [List.mem_append, List.mem_cons, mem_optField_iff] at hkv
      casesm* _ ∨ _
      all_goals try casesm* Exists _, _ ∧ _
      all_goals subst_vars
      all_goals refine ⟨by simp, by simp⟩)]
    rfl

/-- C10: `TaskResponse`'s own serde instance is untagged — deserialization
tries `Minimal`, then `Basic`, then `Full`, keyed only on payload shape.
Hence serializing a `Basic`- or `Full`-tagged response whose task carries a
(string) `id` and deserializing it back yields a `Minimal`-tagged value:
the original tag is not recovered, whatever deserializer the `Task` shape
uses and whatever the component encoders emit. -/
theorem untagged_roundtrip_loses_tag :
    ∀ (E : FieldEncoders) (decodeTask : Json → Option responses.Task)
      (t : responses.Task) (s : String),
      t.id = some s →
      (decodeTaskResponse decodeTask (encodeTaskResponse E (.Basic t)) =
          some (.Minimal { id := s, state := t.state }) ∧
        (decodeTaskResponse decodeTask
            (encodeTaskResponse E (.Basic t))).map
            responses.TaskResponse.tag ≠
          some (responses.TaskResponse.Basic t).tag) ∧
      (decodeTaskResponse decodeTask (encodeTaskResponse E (.Full t)) =
          some (.Minimal { id := s, state := t.state }) ∧
        (decodeTaskResponse decodeTask
            (encodeTaskResponse E (.Full t))).map
            responses.TaskResponse.tag ≠
          some (responses.TaskResponse.Full t).tag) := by
  intro E decodeTask t s hid
  have hmin := decodeMinimalTask_encodeTask E t s hid
  have hB : encodeTaskResponse E (.Basic t) = encodeTask E t := rfl
  have hF : encodeTaskResponse E (.Full t) = encodeTask E t := rfl
  refine ⟨⟨?_, ?_⟩, ⟨?_, ?_⟩⟩
  · rw [hB]; simp [decodeTaskResponse, hmin]
  · rw [hB]; simp [decodeTaskResponse, hmin, responses.TaskResponse.tag]
  · rw [hF]; simp [decodeTaskResponse, hmin]
  · rw [hF]; simp [decodeTaskResponse, hmin, responses.TaskResponse.tag]

/-- Witness component encoders: everything renders as `null` (the claim
holds for any). -/
def c10Encoders : FieldEncoders :=
  ⟨fun _ => Json.null, fun _ => Json.null, fun _ => Json.null,
    fun _ => Json.null, fun _ => Json.null, fun _ => Json.null⟩

/-- Witness task: only the `id` is set. -/
def c10Task : responses.Task :=
  ⟨some "task1", none, none, none, none, none, none, [], none, none, none,
    none⟩

theorem untagged_roundtrip_loses_tag_witness :
    (decodeTaskResponse (fun _ => none)
        (encodeTaskResponse c10Encoders (.Basic c10Task)) =
      some (.Minimal { id := "task1", state := none }) ∧
      (decodeTaskResponse (fun _ => none)
          (encodeTaskResponse c10Encoders (.Basic c10Task))).map
          responses.TaskResponse.tag ≠
        some (responses.TaskResponse.Basic c10Task).tag) ∧
    (decodeTaskResponse (fun _ => none)
        (encodeTaskResponse c10Encoders (.Full c10Task)) =
      some (.Minimal { id := "task1", state := none }) ∧
      (decodeTaskResponse (fun _ => none)
          (encodeTaskResponse c10Encoders (.Full c10Task))).map
          responses.TaskResponse.tag ≠
        some (responses.TaskResponse.Full c10Task).tag) :=
  untagged_roundtrip_loses_tag c10Encoders (fun _ => none) c10Task "task1"
    rfl

end TES

